import Mathlib

/-!
Shallow embedding of kubebox's streaming HTTP client (`src/libs/http-then.js`,
with the near-identical copy in `src/kubik.js`).

The embedding covers:
* the RFC 6455 frame decoder `decodeFrame` (http-then.js lines 190-226),
  including the byte-level Buffer primitives it relies on;
* the per-connection frame reassembly performed by the `decode` generator
  (lines 152-186), modelled as an explicit step function on its local state
  `(frame, payload, offset)`;
* the buffered-mode request path `getBody` (lines 11-31);
* the streaming-mode request driver `getStream` (lines 34-149), modelled as a
  transition function over the Node event stream (response / data / aborted /
  end / error / abort), with the caller-supplied generator represented as an
  explicit state machine following the JS generator protocol
  (`next` / `throw` / `return`, including their behaviour on a completed
  generator), and the returned promise as a single-settle cell.

Machine numbers are `Nat` with the byte-level operations spelled out; fallible
operations return `Except`.
-/

namespace Kubebox

/-! ## Buffer primitives

Node `Buffer` values are modelled as `List Nat` of byte values. -/

/-- Indexed access `buf[i]` on a Node Buffer: an out-of-range read yields
`undefined`, which the bitwise operators coerce to `0`; modelled as `getD i 0`. -/
def bufGet (b : List Nat) (i : Nat) : Nat := b.getD i 0

/-- `Buffer.prototype.readUInt16BE(off)`: big-endian 16-bit read; raises a
`RangeError` when fewer than two bytes are available at `off`. -/
def readUInt16BE (b : List Nat) (off : Nat) : Option Nat :=
  if off + 2 ≤ b.length then some (256 * bufGet b off + bufGet b (off + 1)) else none

/-- `Buffer.prototype.slice(a, e)`: a clamped sub-range view. -/
def bufSlice (b : List Nat) (a e : Nat) : List Nat := (b.take e).drop a

/-- `src.copy(tgt, off)`: writes `min (src.length) (tgt.length - off)` bytes of
`src` into `tgt` starting at `off`, and returns the new target contents paired
with the number of bytes written (the JS return value). -/
def bufCopy (src tgt : List Nat) (off : Nat) : List Nat × Nat :=
  let n := min src.length (tgt.length - off)
  (tgt.take off ++ src.take n ++ tgt.drop (off + n), n)

/-! ## Frame codec (`decodeFrame`, http-then.js lines 188-226) -/

/-- Runtime errors the frame decoder can raise: the `RangeError` from an
out-of-bounds `readUInt16BE`, and the `TypeError` from calling
`frame.readUInt64BE`, which is not a method of Node `Buffer` (line 209). -/
inductive DecErr
  | rangeError
  | typeErrorReadUInt64BE
  deriving Repr, DecidableEq

/-- The record `{FIN, opcode, length, payload}` returned by `decodeFrame` for a
non-close frame (`FIN` keeps its JS value `frame[0] & 0x80`, i.e. 0 or 128). -/
structure Frame where
  FIN : Nat
  opcode : Nat
  length : Nat
  payload : List Nat
  deriving Repr, DecidableEq

/-- Result of `decodeFrame`: a connection-close frame returns only the opcode
(line 200-202), every other frame returns the full record. -/
inductive FrameRes
  | close
  | frame (f : Frame)
  deriving Repr, DecidableEq

/-- The unmasking loop of `decodeFrame` (lines 221-223), started at index `i`:
each payload byte is XORed with `maskingKey[i % 4]`. -/
def xorMask (key : List Nat) : Nat → List Nat → List Nat
  | _, [] => []
  | i, b :: rest => (b ^^^ bufGet key (i % 4)) :: xorMask key (i + 1) rest

/-- `decodeFrame` (lines 190-226): header bits from bytes 0 and 1, extended
length for codes 126 and 127, masking key extraction and XOR unmasking.
The 127 branch calls `frame.readUInt64BE`, which does not exist on Node
`Buffer`, so it raises a `TypeError`. -/
def decodeFrame (frame : List Nat) : Except DecErr FrameRes :=
  let FIN := bufGet frame 0 &&& 0x80
  let opcode := bufGet frame 0 &&& 0x0F
  let mask := bufGet frame 1 &&& 0x80
  if opcode = 0x8 then .ok .close
  else
    let lengthCode := bufGet frame 1 &&& 0x7F
    let extLen : Except DecErr (Nat × Nat) :=
      if lengthCode = 126 then
        match readUInt16BE frame 2 with
        | some L => .ok (L, 4)
        | none => .error .rangeError
      else if lengthCode = 127 then .error .typeErrorReadUInt64BE
      else .ok (lengthCode, 2)
    match extLen with
    | .error e => .error e
    | .ok (len, nextByte) =>
      let keyInfo : Option (List Nat) × Nat :=
        if mask ≠ 0 then (some (bufSlice frame nextByte (nextByte + 4)), nextByte + 4)
        else (none, nextByte)
      let rawPayload := frame.drop keyInfo.2
      let payload :=
        match keyInfo.1 with
        | some key => xorMask key 0 rawPayload
        | none => rawPayload
      .ok (.frame ⟨FIN, opcode, len, payload⟩)

/-! ## Frame reassembly (`decode`, http-then.js lines 152-186)

The generator's loop-local variables `frame`, `payload`, `offset` form its
per-connection state; each iteration of `while (data = yield)` is one step. -/

/-- The reassembly state of the `decode` generator between two incoming data
blocks: the frame being reassembled (if any), the payload buffer, and the
write offset. -/
structure DecState where
  frame : Option Frame
  payload : List Nat
  offset : Nat
  deriving Repr, DecidableEq

/-- What one iteration of `decode` does with the incoming block: deliver a
completed payload to the inner generator, hit a close frame (`break`), or keep
accumulating. -/
inductive DecOut
  | deliver (payload : List Nat)
  | close
  | pending
  deriving Repr, DecidableEq

/-- Fresh reassembly state at generator start (line 154). -/
def decInit : DecState := ⟨none, [], 0⟩

/-- One iteration of the `decode` loop (lines 155-184) on an incoming data
block. On a fresh frame: decode the header; a close opcode breaks out; if the
first block carries exactly the declared payload it is used directly, else a
buffer of the declared length is allocated and the available bytes copied in.
On an in-progress frame: copy the block into the buffer at the current offset.
When the offset reaches the declared length the payload is delivered and the
frame slot is cleared (the `finally` on line 180-182), whatever the inner
generator then does. -/
def decodeStep (st : DecState) (data : List Nat) : Except DecErr (DecState × DecOut) :=
  match st.frame with
  | none =>
    match decodeFrame data with
    | .error e => .error e
    | .ok .close => .ok (st, .close)
    | .ok (.frame f) =>
      let po : List Nat × Nat :=
        if f.payload.length = f.length then (f.payload, f.payload.length)
        else bufCopy f.payload (List.replicate f.length 0) 0
      if po.2 = f.length then .ok (⟨none, po.1, po.2⟩, .deliver po.1)
      else .ok (⟨some f, po.1, po.2⟩, .pending)
  | some f =>
    let c := bufCopy data st.payload st.offset
    let off := st.offset + c.2
    if off = f.length then .ok (⟨none, c.1, off⟩, .deliver c.1)
    else .ok (⟨some f, c.1, off⟩, .pending)

/-- Invariant of the reassembly state: while a frame is in progress, the
payload buffer has exactly the declared length and the offset is strictly
below it. -/
def DecInv (st : DecState) : Prop :=
  match st.frame with
  | none => True
  | some f => st.payload.length = f.length ∧ st.offset < f.length
/-! ## Request driver: shared value model

`Resp` models the `http.IncomingMessage` as observed through the promise:
status code, headers, and the `body` property that the driver assigns before
resolving (absent when resolving eagerly on headers). `JSErr` models the
values that can be rejected or thrown: the `Failed to get resource …` error
with its attached `response` (status and headers), the `Request aborted`
error thrown into the generator, transport-level errors, and values raised by
the consumer generator's own code. -/

/-- A response value, as resolved through the promise: `body` is `none` until
the driver assigns `response.body`. -/
structure Resp (ρ : Type) where
  status : Nat
  headers : List String
  body : Option ρ
  deriving Repr, DecidableEq

/-- Errors flowing through rejections and generator throws. -/
inductive JSErr (ρ : Type)
  | requestFailed (status : Nat) (headers : List String)
  | abortedErr
  | transport (code : Nat)
  | userErr (e : ρ)
  deriving Repr, DecidableEq

/-! ## Buffered mode: `getBody` (http-then.js lines 11-31) -/

/-- What the transport produces for a buffered request: either an `error`
event on the client request, or a response with its status, headers and the
sequence of `data` chunks. -/
inductive BodyTrace
  | errorEv (code : Nat)
  | response (status : Nat) (headers : List String) (chunks : List (List Nat))
  deriving Repr, DecidableEq

/-- `getBody` (lines 11-31). A status `≥ 400` builds the `RequestFailed`
error, attaches the response to it and calls `response.destroy(error)`, which
surfaces the error on the request's `error` handler and rejects — before any
`data` handler is installed, so no body bytes are accumulated. Otherwise the
chunks are accumulated and concatenated on `end`, and the promise resolves
with the response carrying that body. A transport `error` event rejects with
the error. -/
def getBody : BodyTrace → Except (JSErr (List Nat)) (Resp (List Nat))
  | .errorEv c => .error (.transport c)
  | .response s hs chunks =>
    if 400 ≤ s then .error (.requestFailed s hs)
    else .ok ⟨s, hs, some chunks.flatten⟩

/-! ## Streaming mode: `getStream` (http-then.js lines 34-149)

The caller-supplied generator is modelled as a deterministic state machine
over an abstract state `σ`, chunk type `χ` and value type `ρ`, following the
JS generator protocol: resuming a live generator with `gen.next(v)` or
`gen.throw(e)` either suspends again at a `yield` (with the yielded value, the
JS result `{done: false, value}`), returns (`{done: true, value}`), or raises.
Resuming a completed generator with `next` gives `{done: true, value:
undefined}`; throwing into it re-raises the thrown error; `gen.return()`
completes it.

The driver itself is the set of Node event handlers that `getStream` installs;
it is modelled as a transition function over the events of one request
(`response`, `data`, `aborted`, `end`, the request's `error` event, and
`cancel` — the caller invoking the cancellation handle, which calls
`request.abort()` and fires the request's `abort` event once). The
`async` flag is the delivery mode: `true` is eager, `false` is awaited.
`response.destroy()` (line 65) tears the message down, so no further
`data` / `aborted` / `end` events are delivered after it; the `closed` stream
state models that, and also marks the message complete after `end`. -/

/-- Input to one resume of the generator: `gen.next(v)` (with `none` for a
resume without payload) or `gen.throw(e)`. -/
inductive GenIn (χ ρ : Type)
  | next (v : Option χ)
  | throwIn (e : JSErr ρ)

/-- Outcome of one resume: suspend at a `yield` (carrying the yielded value,
i.e. `res.value` with `res.done` false), return (`res.done` true), or raise. -/
inductive GenStep (σ ρ : Type)
  | yields (s : σ) (value : Option ρ)
  | returns (value : Option ρ)
  | raises (e : JSErr ρ)
  deriving Repr, DecidableEq

/-- A consumer generator: the outcome of the priming `gen.next()` (line 56),
and the transition from each suspension state on a resume. -/
structure Gen (σ χ ρ : Type) where
  prime : GenStep σ ρ
  step : σ → GenIn χ ρ → GenStep σ ρ

/-- Driver-side view of the generator: suspended at a yield in state `s`, or
completed (returned, raised, or closed via `gen.return()`). -/
inductive GenLive (σ : Type)
  | live (s : σ)
  | done
  deriving Repr, DecidableEq

/-- Resume the generator, following the JS generator protocol for completed
generators: `next` on a completed generator yields `{done: true, value:
undefined}`, `throw` on a completed generator re-raises the error. -/
def genResume (g : Gen σ χ ρ) (gl : GenLive σ) (inp : GenIn χ ρ) :
    GenStep σ ρ × GenLive σ :=
  match gl with
  | .done =>
    match inp with
    | .next _ => (.returns none, .done)
    | .throwIn e => (.raises e, .done)
  | .live s =>
    match g.step s inp with
    | .yields s' v => (.yields s' v, .live s')
    | .returns v => (.returns v, .done)
    | .raises e => (.raises e, .done)

/-- State of the one-shot result promise. -/
inductive PState (ρ : Type)
  | pending
  | resolved (r : Resp ρ)
  | rejected (e : JSErr ρ)
  deriving Repr, DecidableEq

/-- A `resolve` or `reject` call on the promise: a no-op once settled. -/
def settle (p : PState ρ) (q : PState ρ) : PState ρ :=
  match p with
  | .pending => q
  | _ => p

/-- Stream phase of the request: before the `response` event, streaming with
the response's status/headers and the generator, or closed (response
destroyed, or `end` already handled). -/
inductive StreamSt (σ : Type)
  | noResponse
  | streaming (status : Nat) (headers : List String) (gen : GenLive σ)
  | closed
  deriving Repr, DecidableEq

/-- The driver state: the promise, the `clientAbort` / `serverAbort` flags of
`getStream`, whether `request.abort()` has already run (Node aborts at most
once), and the stream phase. -/
structure DrvState (σ ρ : Type) where
  promise : PState ρ
  clientAbort : Bool
  serverAbort : Bool
  requestAborted : Bool
  stream : StreamSt σ
  deriving Repr, DecidableEq

/-- Transport/caller events driving one streaming request. -/
inductive Ev (χ : Type)
  | response (status : Nat) (headers : List String)
  | data (c : χ)
  | aborted
  | endEv
  | errorEv (code : Nat)
  | cancel
  deriving Repr, DecidableEq

/-- Deliveries observed by the consumer generator's own code: a chunk resume,
the end-of-stream resume (`gen.next()` with no payload, while suspended), the
abort fault (`gen.throw`, while suspended), and the `gen.return()` finalize
call. Resumes of an already-completed generator are not observable by the
consumer and are not logged; the finalize call is logged whenever the driver
makes it. -/
inductive GenEv (χ ρ : Type)
  | chunkD (c : χ)
  | endD
  | abortD
  | finalizeD
  deriving Repr, DecidableEq

/-- Initial driver state, before any event. -/
def getStreamInit : DrvState σ ρ := ⟨.pending, false, false, false, .noResponse⟩

/-- One event handled by `getStream`'s handlers (http-then.js lines 34-149),
returning the new driver state and the deliveries the consumer observed:

* `error` (line 40-45): reject unless `clientAbort`;
* `abort` via the cancellation handle (lines 46, 145-146): `request.abort()`
  fires the `abort` event the first time, whose handler sets `clientAbort`;
* `response` (lines 47-101): a status `≥ 400` destroys the response with the
  `RequestFailed` error, which surfaces on the request's `error` handler
  (reject unless `clientAbort`); otherwise the generator is created and
  primed, the `data`/`aborted`/`end` handlers are installed, and in eager
  mode the promise resolves with the response; if priming raises, the
  exception escapes the handler before the eager `resolve` is reached;
* `aborted` (line 59): `serverAbort = !clientAbort`;
* `data` (lines 60-70): resume with the chunk; if the result is done, destroy
  the response, assign `response.body = res.value` and resolve;
* `end` (lines 71-97): on `serverAbort || clientAbort && !async`, throw the
  abort error into the generator — a not-done result resolves (awaited mode)
  with the yielded value as body, a raise rejects in awaited mode and is
  swallowed in eager mode; otherwise, unless `clientAbort && async`, resume
  once with no payload — a not-done result resolves (awaited mode) with the
  yielded value; a raise here escapes before `gen.return()` is reached.
  Finally `gen.return()` runs (line 96) on every path through the handler
  except that escaped raise. -/
def getStreamStep (async : Bool) (g : Gen σ χ ρ) (st : DrvState σ ρ) :
    Ev χ → DrvState σ ρ × List (GenEv χ ρ)
  | .errorEv c =>
    if st.clientAbort then (st, [])
    else ({st with promise := settle st.promise (.rejected (.transport c))}, [])
  | .cancel =>
    if st.requestAborted then (st, [])
    else ({st with requestAborted := true, clientAbort := true}, [])
  | .aborted =>
    match st.stream with
    | .streaming _ _ _ => ({st with serverAbort := !st.clientAbort}, [])
    | _ => (st, [])
  | .response s hs =>
    match st.stream with
    | .noResponse =>
      if 400 ≤ s then
        ({st with
            promise := if st.clientAbort then st.promise
              else settle st.promise (.rejected (.requestFailed s hs))
            stream := .closed}, [])
      else
        match g.prime with
        | .yields s0 _ =>
          ({st with
              promise := if async then settle st.promise (.resolved ⟨s, hs, none⟩)
                else st.promise
              stream := .streaming s hs (.live s0)}, [])
        | .returns _ =>
          ({st with
              promise := if async then settle st.promise (.resolved ⟨s, hs, none⟩)
                else st.promise
              stream := .streaming s hs .done}, [])
        | .raises _ =>
          ({st with stream := .streaming s hs .done}, [])
    | _ => (st, [])
  | .data c =>
    match st.stream with
    | .streaming s hs gl =>
      let log : List (GenEv χ ρ) := match gl with
        | .live _ => [.chunkD c]
        | .done => []
      match genResume g gl (.next (some c)) with
      | (.yields _ _, gl') => ({st with stream := .streaming s hs gl'}, log)
      | (.returns v, _) =>
        ({st with
            stream := .closed
            promise := settle st.promise (.resolved ⟨s, hs, v⟩)}, log)
      | (.raises _, gl') => ({st with stream := .streaming s hs gl'}, log)
    | _ => (st, [])
  | .endEv =>
    match st.stream with
    | .streaming s hs gl =>
      if st.serverAbort || (st.clientAbort && !async) then
        let log : List (GenEv χ ρ) := match gl with
          | .live _ => [.abortD]
          | .done => []
        match genResume g gl (.throwIn .abortedErr) with
        | (.yields _ v, _) =>
          ({st with
              stream := .closed
              promise := if !async then settle st.promise (.resolved ⟨s, hs, v⟩)
                else st.promise}, log ++ [.finalizeD])
        | (.returns _, _) =>
          ({st with stream := .closed}, log ++ [.finalizeD])
        | (.raises e, _) =>
          ({st with
              stream := .closed
              promise := if !async then settle st.promise (.rejected e)
                else st.promise}, log ++ [.finalizeD])
      else if !(st.clientAbort && async) then
        let log : List (GenEv χ ρ) := match gl with
          | .live _ => [.endD]
          | .done => []
        match genResume g gl (.next none) with
        | (.yields _ v, _) =>
          ({st with
              stream := .closed
              promise := if !async then settle st.promise (.resolved ⟨s, hs, v⟩)
                else st.promise}, log ++ [.finalizeD])
        | (.returns _, _) =>
          ({st with stream := .closed}, log ++ [.finalizeD])
        | (.raises _, _) =>
          ({st with stream := .closed}, log)
      else
        ({st with stream := .closed}, [.finalizeD])
    | _ => (st, [])

/-- Run the driver over a list of events, concatenating the observed
deliveries. -/
def getStreamRun (async : Bool) (g : Gen σ χ ρ) :
    DrvState σ ρ → List (Ev χ) → DrvState σ ρ × List (GenEv χ ρ)
  | st, [] => (st, [])
  | st, ev :: evs =>
    let r := getStreamStep async g st ev
    let r' := getStreamRun async g r.1 evs
    (r'.1, r.2 ++ r'.2)

/-- Iterated invocation of the cancellation handle (`() => request.abort()`,
line 146): each call is one `cancel` event. -/
def cancelIter (async : Bool) (g : Gen σ χ ρ) : Nat → DrvState σ ρ → DrvState σ ρ
  | 0, st => st
  | n + 1, st => cancelIter async g n (getStreamStep async g st .cancel).1

/-! ### Concrete consumer generators used in witnesses and counterexamples -/

/-- A consumer that never finishes: it yields forever (a log tail). -/
def gAlways : Gen Unit Nat Nat where
  prime := .yields () none
  step _ _ := .yields () none

/-- A consumer that catches the abort fault and returns the value 99. -/
def gRet99 : Gen Unit Nat Nat where
  prime := .yields () none
  step _ inp :=
    match inp with
    | .throwIn _ => .returns (some 99)
    | .next _ => .yields () none

/-- A consumer that catches the abort fault and yields the value 77. -/
def gYield77 : Gen Unit Nat Nat where
  prime := .yields () none
  step _ inp :=
    match inp with
    | .throwIn _ => .yields () (some 77)
    | .next _ => .yields () none

/-- A consumer that finishes with value 100 upon its third chunk. -/
def gDone3 : Gen Nat Nat Nat where
  prime := .yields 1 none
  step n inp :=
    match inp with
    | .next (some _) => if 3 ≤ n then .returns (some 100) else .yields (n + 1) none
    | .next none => .yields n none
    | .throwIn e => .raises e

/-- A consumer whose priming resume raises: its body throws before reaching
the first `yield`, so the priming `gen.next()` on line 56 throws. -/
def gPrimeRaise : Gen Unit Nat Nat where
  prime := .raises (.userErr 5)
  step _ _ := .yields () none

/-- The delivery pattern asserted by claim C1: zero or more chunk deliveries,
then exactly one of the graceful-end or abort deliveries, then the finalize
call. -/
def claimC1Shape : List (GenEv χ ρ) → Bool
  | .chunkD _ :: rest => claimC1Shape rest
  | [.endD, .finalizeD] => true
  | [.abortD, .finalizeD] => true
  | _ => false

/-- The delivery pattern the driver actually guarantees: zero or more chunk
deliveries, then at most one of the graceful-end or abort deliveries, then at
most one finalize call; the end/abort delivery can be missing (consumer
already finished, stream destroyed before `end`, or eager-mode client
cancellation) and the finalize can be missing (stream destroyed after the
consumer finished on a chunk, or the consumer raised from the graceful-end
delivery, which escapes the handler before `gen.return()`). -/
def amendedC1Shape : List (GenEv χ ρ) → Bool
  | .chunkD _ :: rest => amendedC1Shape rest
  | [] => true
  | [.finalizeD] => true
  | [.endD] => true
  | [.endD, .finalizeD] => true
  | [.abortD, .finalizeD] => true
  | _ => false


theorem bufCopy_length (src tgt : List Nat) (off : Nat) (h : off ≤ tgt.length) :
    (bufCopy src tgt off).1.length = tgt.length := by
  simp only [bufCopy, List.length_append, List.length_take, List.length_drop]
  omega

theorem bufCopy_count_le (src tgt : List Nat) (off : Nat) :
    (bufCopy src tgt off).2 ≤ tgt.length - off := by
  simp only [bufCopy]
  omega

/-! ## Claims about the frame codec -/

/-- Claim C8: the XOR unmasking of `decodeFrame` (each payload byte XORed with
`maskingKey[i % 4]`) is an involution, so applying it twice — masking then
unmasking with the same key — returns the original payload bytes. -/
theorem xorMask_roundtrip (key p : List Nat) (i : Nat) :
    xorMask key i (xorMask key i p) = p := by
  induction p generalizing i with
  | nil => rfl
  | cons b rest ih => simp [xorMask, ih, Nat.xor_cancel_right]

/-- Claim C3: evaluation of `decodeFrame` around the extended-length paths.
A header with length code 126 and big-endian extension bytes `[1, 44]` does
decode to declared length 300, and a plain length code is itself the length;
but a header with length code 127 raises a `TypeError`, because the source
calls `frame.readUInt64BE`, which is not a method of Node `Buffer` — instead
of reading the 64-bit big-endian length the claim (and RFC 6455, which the
source cites) prescribes. -/
theorem decodeFrame_len127_TypeError :
    decodeFrame [0x81, 0x7F, 0, 0, 0, 0, 0, 0, 1, 44] = .error .typeErrorReadUInt64BE ∧
    decodeFrame [0x81, 0x7E, 1, 44] = .ok (.frame ⟨0x80, 1, 300, []⟩) ∧
    decodeFrame [0x81, 5, 72, 101, 108, 108, 111] =
      .ok (.frame ⟨0x80, 1, 5, [72, 101, 108, 108, 111]⟩) :=
  ⟨rfl, rfl, rfl⟩

/-- Claim C10: one step of the `decode` reassembly loop, for the frame
currently being processed (either the stored in-progress frame, or the one
just decoded from a fresh block), either delivers exactly one payload whose
length equals the frame's declared length and clears the frame slot, or stays
pending with the frame slot still holding that frame and the invariant
(payload buffer of declared length, offset strictly below it) re-established. -/
theorem decode_reassembly (st : DecState) (data : List Nat) (f : Frame)
    (st' : DecState) (out : DecOut)
    (hinv : DecInv st)
    (hf : st.frame = some f ∨ (st.frame = none ∧ decodeFrame data = .ok (.frame f)))
    (hstep : decodeStep st data = .ok (st', out)) :
    (∀ p, out = .deliver p → p.length = f.length ∧ st'.frame = none) ∧
    (out = .pending → st'.frame = some f ∧ st'.payload.length = f.length ∧
      st'.offset < f.length) := by
  rcases hf with hf | ⟨hn, hdec⟩
  · -- in-progress frame: the block is copied into the allocated buffer
    have hlen : st.payload.length = f.length ∧ st.offset < f.length := by
      simpa [DecInv, hf] using hinv
    have hoff : st.offset ≤ st.payload.length := by omega
    have hplen := bufCopy_length data st.payload st.offset hoff
    have hcnt := bufCopy_count_le data st.payload st.offset
    simp only [decodeStep, hf] at hstep
    split at hstep
    · cases hstep
      refine ⟨?_, fun hp => (nomatch hp)⟩
      rintro p hp
      cases hp
      exact ⟨by omega, rfl⟩
    · cases hstep
      refine ⟨fun p hp => (nomatch hp), fun _ => ⟨rfl, (by simp only; omega), (by simp only; omega)⟩⟩
  · -- fresh frame just decoded from this block
    have hplen := bufCopy_length f.payload (List.replicate f.length 0) 0 (by simp)
    have hcnt := bufCopy_count_le f.payload (List.replicate f.length 0) 0
    simp only [List.length_replicate, Nat.sub_zero] at hplen hcnt
    simp only [decodeStep, hn, hdec] at hstep
    by_cases heq : f.payload.length = f.length
    · -- the first block carries exactly the declared payload
      simp only [if_pos heq, if_pos heq] at hstep
      cases hstep
      refine ⟨?_, fun hp => (nomatch hp)⟩
      rintro p hp
      cases hp
      exact ⟨heq, rfl⟩
    · -- allocate a buffer of the declared length and copy what is available
      rw [if_neg heq] at hstep
      split at hstep
      · cases hstep
        refine ⟨?_, fun hp => (nomatch hp)⟩
        rintro p hp
        cases hp
        exact ⟨by omega, rfl⟩
      · cases hstep
        refine ⟨fun p hp => (nomatch hp), fun _ => ⟨rfl, (by simp only; omega), (by simp only; omega)⟩⟩

/-- Witness for C10: a 5-byte text frame whose payload arrives split across two
socket blocks — `[0x81, 5, 72, 101]` then `[108, 108, 111]`. The second step
delivers a payload of exactly the declared length 5 and clears the frame
slot. -/
theorem decode_reassembly_witness :
    DecInv ⟨some ⟨0x80, 1, 5, [72, 101]⟩, [72, 101, 0, 0, 0], 2⟩ ∧
    (∀ p, DecOut.deliver [72, 101, 108, 108, 111] = DecOut.deliver p →
      p.length = (5 : Nat) ∧ (none : Option Frame) = none) := by
  refine ⟨by constructor <;> decide, ?_⟩
  have h := decode_reassembly ⟨some ⟨0x80, 1, 5, [72, 101]⟩, [72, 101, 0, 0, 0], 2⟩
    [108, 108, 111] ⟨0x80, 1, 5, [72, 101]⟩ ⟨none, [72, 101, 108, 108, 111], 5⟩
    (.deliver [72, 101, 108, 108, 111])
    (by constructor <;> decide) (Or.inl rfl) rfl
  intro p hp
  rcases h.1 p hp with ⟨h1, _⟩
  exact ⟨h1, rfl⟩

/-- Claim C5: a buffered request whose response has status `≥ 400` rejects
with the `RequestFailed` error carrying the response's status and headers,
and never resolves a body, whatever chunks were in flight. -/
theorem getBody_ge_400_rejects (s : Nat) (hs : List String) (chunks : List (List Nat))
    (h : 400 ≤ s) :
    getBody (.response s hs chunks) = .error (.requestFailed s hs) := by
  simp [getBody, h]

/-- Witness for C5: a 404 response with chunks in flight rejects with the
`RequestFailed` error whose attached status is 404, and accumulates no body. -/
theorem getBody_ge_400_rejects_witness :
    getBody (.response 404 [] [[111, 107]]) = .error (.requestFailed 404 []) :=
  getBody_ge_400_rejects 404 [] [[111, 107]] (by decide)

/-! ### Driver lemmas -/

theorem settle_settled (p q : PState ρ) (h : p ≠ .pending) : settle p q = p := by
  cases p <;> simp_all [settle]

/-- Once the promise has settled, no event changes it: every `resolve` and
`reject` in the handlers goes through the single-settle primitive. -/
theorem getStreamStep_settled (async : Bool) (g : Gen σ χ ρ) (st : DrvState σ ρ)
    (ev : Ev χ) (h : st.promise ≠ .pending) :
    ((getStreamStep async g st ev).1).promise = st.promise := by
  have hs : ∀ q, settle st.promise q = st.promise := fun q => settle_settled _ q h
  cases ev <;> simp only [getStreamStep] <;> (repeat' split) <;> simp [hs]

theorem getStreamRun_settled (async : Bool) (g : Gen σ χ ρ) (evs : List (Ev χ)) :
    ∀ st : DrvState σ ρ, st.promise ≠ .pending →
    ((getStreamRun async g st evs).1).promise = st.promise := by
  induction evs with
  | nil => intro st _; rfl
  | cons ev evs ih =>
    intro st h
    have h1 := getStreamStep_settled async g st ev h
    have h2 := ih (getStreamStep async g st ev).1 (by rw [h1]; exact h)
    simp only [getStreamRun]
    rw [h2, h1]

theorem getStreamRun_append (async : Bool) (g : Gen σ χ ρ) (evs₁ evs₂ : List (Ev χ)) :
    ∀ st : DrvState σ ρ,
    (getStreamRun async g st (evs₁ ++ evs₂)).1 =
      (getStreamRun async g (getStreamRun async g st evs₁).1 evs₂).1 := by
  induction evs₁ with
  | nil => intro st; rfl
  | cons ev evs ih => intro st; simp only [List.cons_append, getStreamRun]; exact ih _

/-- Once the response has been destroyed or ended (`closed`), no further event
reaches the generator: no more deliveries, and the stream stays closed. -/
theorem getStreamRun_closed (async : Bool) (g : Gen σ χ ρ) (evs : List (Ev χ)) :
    ∀ st : DrvState σ ρ, st.stream = .closed →
    (getStreamRun async g st evs).1.stream = .closed ∧
      (getStreamRun async g st evs).2 = [] := by
  induction evs with
  | nil => intro st h; exact ⟨h, rfl⟩
  | cons ev evs ih =>
    intro st h
    have hstep : (getStreamStep async g st ev).1.stream = .closed ∧
        (getStreamStep async g st ev).2 = [] := by
      cases ev <;> simp only [getStreamStep, h] <;> (repeat' split) <;> simp [h]
    obtain ⟨hrest₁, hrest₂⟩ := ih (getStreamStep async g st ev).1 hstep.1
    simp only [getStreamRun]
    exact ⟨hrest₁, by simp [hstep.2, hrest₂]⟩

/-! ### Claims about the streaming driver -/

/-- Claim C6: the result promise of a streaming request settles at most once:
once a prefix of the event trace has settled it (resolved or rejected), any
continuation of the trace — further chunks, graceful end, server abort,
client cancellation, in any interleaving — leaves it in exactly that state;
the later `resolve`/`reject` attempts are no-ops, never errors. -/
theorem getStream_single_settle (async : Bool) (g : Gen σ χ ρ)
    (evs extra : List (Ev χ))
    (h : (getStreamRun async g getStreamInit evs).1.promise ≠ .pending) :
    (getStreamRun async g getStreamInit (evs ++ extra)).1.promise =
      (getStreamRun async g getStreamInit evs).1.promise := by
  rw [getStreamRun_append]
  exact getStreamRun_settled async g extra _ h

/-- Witness for C6: an eager request resolves on headers; a later server abort
and end (which reject in other circumstances) leave the promise unchanged. -/
theorem getStream_single_settle_witness :
    (getStreamRun true gAlways getStreamInit [Ev.response 200 []]).1.promise ≠ .pending ∧
    (getStreamRun true gAlways getStreamInit
        ([Ev.response 200 []] ++ [Ev.aborted, Ev.endEv])).1.promise =
      (getStreamRun true gAlways getStreamInit [Ev.response 200 []]).1.promise :=
  ⟨by decide, getStream_single_settle true gAlways [Ev.response 200 []]
    [Ev.aborted, Ev.endEv] (by decide)⟩

/-- Counterexample to claim C7: an eager streaming request whose consumer's
priming resume raises. The claim says the result future resolves as soon as
the headers arrive with status `< 400`, for every consumer; but the priming
`gen.next()` on line 56 throws, the exception escapes the `response` handler
before the `resolve(response)` on line 100 is reached, and the future is
still pending after the response event — and still pending after the
transport's graceful end. -/
theorem getStream_eager_prime_raise_cex :
    gPrimeRaise.prime = .raises (.userErr 5) ∧
    (getStreamRun true gPrimeRaise getStreamInit [Ev.response 200 []]).1.promise =
      PState.pending ∧
    (getStreamRun true gPrimeRaise getStreamInit
        [Ev.response 200 [], Ev.endEv]).1.promise = PState.pending := by
  refine ⟨rfl, ?_, ?_⟩ <;> decide

/-- Claim C7 as amended: in eager delivery mode (`async = true`), when the
response arrives with status `< 400` and the consumer's priming resume does
not raise, the result promise resolves right there with the response's status
and headers (and no body), and stays so resolved whatever happens afterwards
— however long streaming continues and whatever the consumer eventually
returns or raises. (When priming raises, the exception escapes the handler
before the eager resolve and the future is not resolved at that point.) -/
theorem getStream_eager_resolves_on_headers (g : Gen σ χ ρ) (s : Nat)
    (hs : List String) (post : List (Ev χ))
    (hlt : s < 400) (hp : ∀ e, g.prime ≠ .raises e) :
    (getStreamRun true g getStreamInit (.response s hs :: post)).1.promise =
      .resolved ⟨s, hs, none⟩ := by
  have hstep : (getStreamStep true g (getStreamInit : DrvState σ ρ)
      (.response s hs)).1.promise = .resolved ⟨s, hs, none⟩ := by
    have h4 : ¬ 400 ≤ s := by omega
    rcases hg : g.prime with _ | _ | e
    · simp [getStreamStep, getStreamInit, h4, hg, settle]
    · simp [getStreamStep, getStreamInit, h4, hg, settle]
    · exact absurd hg (hp e)
  simp only [getStreamRun]
  rw [getStreamRun_settled true g post _ (by rw [hstep]; exact fun h => nomatch h)]
  exact hstep

/-- Witness for the amended C7: an eager streaming request with status 200
resolves on headers with that status and those headers, even though the
consumer then finishes with its own value on the third chunk. -/
theorem getStream_eager_resolves_on_headers_witness :
    (getStreamRun true gDone3 getStreamInit
        [Ev.response 200 [], .data 1, .data 2, .data 3, .data 4, .endEv]).1.promise =
      .resolved ⟨200, [], none⟩ :=
  getStream_eager_resolves_on_headers gDone3 200 []
    [.data 1, .data 2, .data 3, .data 4, .endEv] (by omega) (fun e h => nomatch h)

/-- Claim C9: the cancellation handle is idempotent: the first invocation only
marks the request aborted and sets `clientAbort` — it never settles the
promise by itself — and every further invocation (so any `N ≥ 1` invocations
in total), including on a long-completed transport, is a no-op with no error
and no further state change. -/
theorem getStream_cancel_idempotent (async : Bool) (g : Gen σ χ ρ)
    (st : DrvState σ ρ) (n : Nat) (hn : 1 ≤ n) :
    cancelIter async g n st = (getStreamStep async g st .cancel).1 ∧
    ((getStreamStep async g st .cancel).1).promise = st.promise ∧
    (getStreamStep async g st .cancel).2 = [] := by
  refine ⟨?_, ?_, ?_⟩
  · obtain ⟨m, rfl⟩ : ∃ m, n = m + 1 := ⟨n - 1, by omega⟩
    clear hn
    induction m generalizing st with
    | zero => rfl
    | succ k ih =>
      have habs : ((getStreamStep async g st .cancel).1).requestAborted = true := by
        simp only [getStreamStep]
        split <;> simp_all
      have hfix : ∀ st' : DrvState σ ρ, st'.requestAborted = true →
          (getStreamStep async g st' .cancel).1 = st' := by
        intro st' h'
        simp [getStreamStep, h']
      have hstep : (getStreamStep async g (getStreamStep async g st .cancel).1 .cancel).1 =
          (getStreamStep async g st .cancel).1 := hfix _ habs
      calc cancelIter async g (k + 1 + 1) st
          = cancelIter async g (k + 1) (getStreamStep async g st .cancel).1 := rfl
        _ = (getStreamStep async g (getStreamStep async g st .cancel).1 .cancel).1 := ih _
        _ = (getStreamStep async g st .cancel).1 := hstep
  · simp only [getStreamStep]; split <;> rfl
  · simp only [getStreamStep]; split <;> rfl

/-- Witness for C9: on a transport that already completed (stream closed,
promise resolved), three invocations of the cancellation handle equal one,
and that one leaves the promise untouched and delivers nothing. -/
theorem getStream_cancel_idempotent_witness :
    cancelIter true gAlways 3 ⟨.resolved ⟨200, [], none⟩, false, false, false, .closed⟩ =
      (getStreamStep true gAlways
        ⟨.resolved ⟨200, [], none⟩, false, false, false, .closed⟩ .cancel).1 ∧
    ((getStreamStep true gAlways
        ⟨.resolved ⟨200, [], none⟩, false, false, false, .closed⟩ .cancel).1).promise =
      (PState.resolved ⟨200, [], none⟩ : PState Nat) ∧
    (getStreamStep true gAlways
        ⟨.resolved ⟨200, [], none⟩, false, false, false, .closed⟩ .cancel).2 = [] :=
  getStream_cancel_idempotent true gAlways _ 3 (by omega)

/-- Claim C4: in awaited mode, when the consumer finishes (returns a value) on
a chunk resume, the driver destroys the response, records the returned value
as `response.body` and resolves the promise with it; that chunk is the last
delivery the consumer ever observes — whatever events are still in flight
afterwards produce no further deliveries (the stream stays closed). -/
theorem getStream_awaited_chunk_finish (g : Gen σ χ ρ) (st : DrvState σ ρ)
    (s : Nat) (hs : List String) (gs : σ) (c : χ) (v : Option ρ) (rest : List (Ev χ))
    (hstream : st.stream = .streaming s hs (.live gs))
    (hpend : st.promise = .pending)
    (hret : g.step gs (.next (some c)) = .returns v) :
    ((getStreamStep false g st (.data c)).1).promise = .resolved ⟨s, hs, v⟩ ∧
    (getStreamStep false g st (.data c)).2 = [.chunkD c] ∧
    (getStreamRun false g (getStreamStep false g st (.data c)).1 rest).2 = [] := by
  have hres : genResume g (.live gs) (.next (some c)) = (.returns v, .done) := by
    simp [genResume, hret]
  have hcl : (getStreamStep false g st (.data c)).1.stream = .closed := by
    simp [getStreamStep, hstream, hres]
  refine ⟨?_, ?_, (getStreamRun_closed false g rest _ hcl).2⟩
  · simp [getStreamStep, hstream, hres, hpend, settle]
  · simp [getStreamStep, hstream, hres]

/-- Witness for C4: an awaited request whose consumer finishes with value 100
on its third chunk — the step on that chunk resolves the promise with body
100, the consumer observes exactly that chunk, and the in-flight fourth chunk
and the end event deliver nothing further. -/
theorem getStream_awaited_chunk_finish_witness :
    ((getStreamStep false gDone3 ⟨.pending, false, false, false, .streaming 200 [] (.live 3)⟩
        (.data 7)).1).promise = .resolved ⟨200, [], some 100⟩ ∧
    (getStreamStep false gDone3 ⟨.pending, false, false, false, .streaming 200 [] (.live 3)⟩
        (.data 7)).2 = [.chunkD 7] ∧
    (getStreamRun false gDone3
      (getStreamStep false gDone3 ⟨.pending, false, false, false, .streaming 200 [] (.live 3)⟩
        (.data 7)).1 [.data 8, .endEv]).2 = [] :=
  getStream_awaited_chunk_finish gDone3 _ 200 [] 3 7 (some 100) [.data 8, .endEv]
    rfl rfl (by decide)

/-- Counterexample to claim C2: an awaited streaming request whose transport
aborts (server abort then end), with a consumer that catches the abort fault
and returns the value 99. The claim says the promise then resolves with that
value; in the source the `!res.done` guard on line 77 skips the resolve when
the generator returns, so after the whole terminal trace — abort delivered,
finalize done, stream closed — the promise is still pending. -/
theorem getStream_abort_catch_return_cex :
    (getStreamRun false gRet99 getStreamInit
        [Ev.response 200 [], Ev.aborted, Ev.endEv]).1.promise = PState.pending ∧
    (getStreamRun false gRet99 getStreamInit
        [Ev.response 200 [], Ev.aborted, Ev.endEv]).1.stream = StreamSt.closed ∧
    (getStreamRun false gRet99 getStreamInit
        [Ev.response 200 [], Ev.aborted, Ev.endEv]).2 =
      [GenEv.abortD, GenEv.finalizeD] := by
  refine ⟨?_, ?_, ?_⟩ <;> decide

/-- Claim C2 as amended: in awaited mode, when the transport terminates
abnormally and the driver throws the abort fault into the suspended consumer:
if the consumer catches the fault and yields a value, the promise resolves
with that yielded value as the body; if it catches the fault and returns a
value, the promise is left pending (the `!res.done` guard skips the resolve);
if it does not catch the fault or re-raises, the promise rejects with the
propagated fault. -/
theorem getStream_awaited_abort_outcomes (g : Gen σ χ ρ) (st : DrvState σ ρ)
    (s : Nat) (hs : List String) (gs : σ)
    (hstream : st.stream = .streaming s hs (.live gs))
    (hpend : st.promise = .pending)
    (habort : st.serverAbort = true ∨ st.clientAbort = true) :
    (∀ gs' v, g.step gs (.throwIn .abortedErr) = .yields gs' v →
      ((getStreamStep false g st .endEv).1).promise = .resolved ⟨s, hs, v⟩) ∧
    (∀ v, g.step gs (.throwIn .abortedErr) = .returns v →
      ((getStreamStep false g st .endEv).1).promise = .pending) ∧
    (∀ e, g.step gs (.throwIn .abortedErr) = .raises e →
      ((getStreamStep false g st .endEv).1).promise = .rejected e) := by
  refine ⟨?_, ?_, ?_⟩
  · intro gs' v hg
    have hres : genResume g (.live gs) (.throwIn .abortedErr) = (.yields gs' v, .live gs') := by
      simp [genResume, hg]
    rcases habort with h | h <;> simp [getStreamStep, hstream, hres, h, hpend, settle]
  · intro v hg
    have hres : genResume g (.live gs) (.throwIn .abortedErr) = (.returns v, .done) := by
      simp [genResume, hg]
    rcases habort with h | h <;> simp [getStreamStep, hstream, hres, h, hpend]
  · intro e hg
    have hres : genResume g (.live gs) (.throwIn .abortedErr) = (.raises e, .done) := by
      simp [genResume, hg]
    rcases habort with h | h <;> simp [getStreamStep, hstream, hres, h, hpend, settle]

/-- Witness for the amended C2: with a consumer that catches the abort fault
and yields 77, the end event after a server abort resolves the awaited promise
with body 77. -/
theorem getStream_awaited_abort_outcomes_witness :
    ((getStreamStep false gYield77
        ⟨.pending, false, true, false, .streaming 200 [] (.live ())⟩ .endEv).1).promise =
      .resolved ⟨200, [], some 77⟩ :=
  (getStream_awaited_abort_outcomes gYield77 _ 200 [] () rfl rfl (Or.inl rfl)).1
    () (some 77) rfl

theorem amendedC1Shape_chunk (c : χ) (l : List (GenEv χ ρ)) :
    amendedC1Shape (.chunkD c :: l) = amendedC1Shape l := rfl

/-- Counterexample to claim C1: an eager streaming request that the client
cancels before the transport ends. The `end` handler's guard
`!(clientAbort && async)` skips both the graceful-end resume and the abort
throw, so the consumer observes only the finalize call — there is no
end-of-stream or abort delivery at all, contradicting the claimed
"exactly one of {graceful-end, abort}, then finalize" order. -/
theorem getStream_eager_cancel_cex :
    (getStreamRun true gAlways getStreamInit
        [Ev.response 200 [], Ev.cancel, Ev.endEv]).2 = [GenEv.finalizeD] ∧
    claimC1Shape ((getStreamRun true gAlways getStreamInit
        [Ev.response 200 [], Ev.cancel, Ev.endEv]).2) = false := by
  refine ⟨?_, ?_⟩ <;> decide

/-- Claim C1 as amended: over every event trace, in either delivery mode and
for every consumer, the deliveries the consumer observes are zero or more
chunks, then at most one of the graceful-end or abort deliveries, then at
most one finalize call — the end/abort delivery being omitted when the
consumer already finished on a chunk, when the response was destroyed, or on
an eager-mode client cancellation, and the finalize call being omitted when
no `end` event reaches the live response or when the consumer raises from
the graceful-end delivery. -/
theorem getStream_delivery_order (async : Bool) (g : Gen σ χ ρ) (evs : List (Ev χ)) :
    amendedC1Shape (getStreamRun async g getStreamInit evs).2 = true := by
  suffices h : ∀ (evs : List (Ev χ)) (st : DrvState σ ρ),
      amendedC1Shape (getStreamRun async g st evs).2 = true from h evs getStreamInit
  intro evs
  induction evs with
  | nil => intro st; rfl
  | cons ev evs ih =>
    intro st
    rcases hstream : st.stream with _ | ⟨s, hs, gl⟩ | _
    · -- before the response: no handler delivers anything
      have h2 : (getStreamStep async g st ev).2 = [] := by
        cases ev <;> simp only [getStreamStep, hstream] <;> (repeat' split) <;> rfl
      simp only [getStreamRun, h2, List.nil_append]
      exact ih _
    · -- streaming
      cases ev with
      | response s' hs' =>
        have h2 : (getStreamStep async g st (.response s' hs')).2 = [] := by
          simp [getStreamStep, hstream]
        simp only [getStreamRun, h2, List.nil_append]
        exact ih _
      | aborted =>
        have h2 : (getStreamStep async g st .aborted).2 = [] := by
          simp [getStreamStep, hstream]
        simp only [getStreamRun, h2, List.nil_append]
        exact ih _
      | errorEv c =>
        have h2 : (getStreamStep async g st (.errorEv c)).2 = [] := by
          simp only [getStreamStep]
          split <;> rfl
        simp only [getStreamRun, h2, List.nil_append]
        exact ih _
      | cancel =>
        have h2 : (getStreamStep async g st .cancel).2 = [] := by
          simp only [getStreamStep]
          split <;> rfl
        simp only [getStreamRun, h2, List.nil_append]
        exact ih _
      | data c =>
        rcases gl with gs | _
        · rcases hg : g.step gs (.next (some c)) with ⟨gs', v⟩ | v | e
          · have hres : genResume g (.live gs) (.next (some c)) = (.yields gs' v, .live gs') := by
              simp [genResume, hg]
            have hstep : getStreamStep async g st (.data c) =
                ({st with stream := .streaming s hs (.live gs')}, [.chunkD c]) := by
              simp [getStreamStep, hstream, hres]
            simp only [getStreamRun, hstep, List.singleton_append, amendedC1Shape_chunk]
            exact ih _
          · have hres : genResume g (.live gs) (.next (some c)) = (.returns v, .done) := by
              simp [genResume, hg]
            have hcl : (getStreamStep async g st (.data c)).1.stream = .closed := by
              simp [getStreamStep, hstream, hres]
            have h2 : (getStreamStep async g st (.data c)).2 = [.chunkD c] := by
              simp [getStreamStep, hstream, hres]
            simp only [getStreamRun, h2, (getStreamRun_closed async g evs _ hcl).2,
              List.append_nil]
            rfl
          · have hres : genResume g (.live gs) (.next (some c)) = (.raises e, .done) := by
              simp [genResume, hg]
            have hstep : getStreamStep async g st (.data c) =
                ({st with stream := .streaming s hs .done}, [.chunkD c]) := by
              simp [getStreamStep, hstream, hres]
            simp only [getStreamRun, hstep, List.singleton_append, amendedC1Shape_chunk]
            exact ih _
        · -- the generator already completed: the resume is unobservable
          have hres : genResume g (.done : GenLive σ) (.next (some c)) = (.returns none, .done) := rfl
          have h2 : (getStreamStep async g st (.data c)).2 = [] := by
            simp [getStreamStep, hstream, hres]
          simp only [getStreamRun, h2, List.nil_append]
          exact ih _
      | endEv =>
        have hcl : (getStreamStep async g st .endEv).1.stream = .closed := by
          simp only [getStreamStep, hstream]
          (repeat' split) <;> rfl
        have hshape : amendedC1Shape (getStreamStep async g st .endEv).2 = true := by
          rcases gl with gs | _ <;>
            · simp only [getStreamStep, hstream]
              (repeat' split) <;> simp [genResume, amendedC1Shape]
        simp only [getStreamRun, (getStreamRun_closed async g evs _ hcl).2, List.append_nil]
        exact hshape
    · -- closed: nothing more is delivered
      rw [(getStreamRun_closed async g (ev :: evs) st hstream).2]
      rfl

end Kubebox
